import Mathlib

/-!
Shallow embedding of the txmpg PostgreSQL transaction finalizers.

The repository contains several historical variants of the finalizer files.
We embed:
* `Txmpg.S2P`   — the `database/sql`-based two-phase finalizer
  (`Finalizer2P` in finalizer2p.go, first and second copies, which have
  identical `Finalize`/`Commit`/`Abort` bodies).
* `Txmpg.P2P`   — the pgx-based two-phase finalizer (third copy in
  finalizer2p.go, with the `comitted`/`aborted` flags).
* `Txmpg.P1`    — the pgx-based single-phase finalizer (unnamed part_002;
  part_003 has the same `Commit` logic over database/sql).

Database answers and driver failures are explicit inputs to each operation;
every operation returns the list of SQL commands it issued (tagged with the
context they ran under) together with a normal return or a Go panic.
-/

namespace Txmpg

/-- Go error values as they appear in the finalizer code paths:
context cancellation errors, the transaction-done error of the driver,
database/server errors, `errors.New`-style messages, and
`txmanager.WrapError` wrapping. -/
inductive GoErr where
  | canceled
  | deadlineExceeded
  | txDone
  | db (msg : String)
  | simple (msg : String)
  | wrap (inner : GoErr) (msg : String)
deriving DecidableEq, Repr

/-- The message of a Go error (its `Error()` string). -/
def GoErr.message : GoErr → String
  | .canceled => "context canceled"
  | .deadlineExceeded => "context deadline exceeded"
  | .txDone => "sql: transaction has already been committed or rolled back"
  | .db m => m
  | .simple m => m
  | .wrap _ m => m

/-- The context a SQL command runs under: the caller-supplied context, or a
fresh context derived from `context.Background()` with a timeout in
seconds. -/
inductive CtxKind where
  | caller
  | background (timeoutSecs : Nat)
deriving DecidableEq, Repr

/-- SQL commands the finalizers issue. -/
inductive SqlCmd where
  | prepareTransaction (id : String)
  | commitPrepared (id : String)
  | rollbackPrepared (id : String)
  | txRollback
  | txCommit
  | queryTxidStatus (txid : Int)
deriving DecidableEq, Repr

/-- A database side effect: a command together with the context it was
issued under. -/
structure Eff where
  cmd : SqlCmd
  ctx : CtxKind
deriving DecidableEq, Repr

/-- Normal return or Go panic. -/
inductive Outcome (α : Type) where
  | ret (a : α)
  | panicked (msg : String)
deriving DecidableEq, Repr

/-- The spec lifecycle states of a participant. -/
inductive PState where
  | NEW
  | ACTIVE
  | FINALIZED
  | COMMITTED
  | ABORTED
deriving DecidableEq, Repr

/-- Results of the registered deferred actions, in insertion order
(`none` = the action returned nil). -/
def runDeferred : List (Option GoErr) → Option GoErr
  | [] => none
  | none :: rest => runDeferred rest
  | some e :: _ => some e

/-- The per-participant view of the PostgreSQL server: whether the local
transaction is still in progress, the name of the prepared
transaction of the participant if one is staged, and whether the changes of the participant are
committed. -/
structure PgDB where
  txInProgress : Bool
  prepared : Option String
  committed : Bool
deriving DecidableEq, Repr

namespace S2P

/-- The `database/sql`-based `Finalizer2P` (first two copies in
finalizer2p.go).  `tx = some done` models a non-nil `*sql.Tx` whose
driver-side done flag is `done`; `tx = none` models `m.TX = nil`. -/
structure Finalizer2P where
  name : String
  tx : Option Bool
  serverTXID : Int
  serverConnID : Int
  id : String
  deferredCommits : List (Option GoErr)
deriving DecidableEq, Repr

/-- `finalizerError`: wraps an error with the participant identity
message. -/
def finalizerError (m : Finalizer2P) (e : GoErr) : GoErr :=
  .wrap e
    ("TX: " ++ m.id ++ " PGTXID: " ++ toString m.serverTXID ++
      " PGPID: " ++ toString m.serverConnID ++ " message: " ++ e.message)

/-- `Finalizer2P.Finalize`: run the deferred actions in order; assign a
fresh UUID to `m.id`; issue `PREPARE TRANSACTION` on the local handle
(nil handle dereference panics).  `injPrep` injects a driver-level failure
of the `Exec`; otherwise the database decides.  On a PREPARE error the id
is cleared (the Go code does this in a deferred function) and a wrapped
error is returned; on success the handle is set to nil. -/
def Finalize (m : Finalizer2P) (db : PgDB) (u : String)
    (injPrep : Option GoErr) :
    List Eff × Outcome (Option GoErr × Finalizer2P × PgDB) :=
  match runDeferred m.deferredCommits with
  | some e =>
      ([], .ret (some (finalizerError m (.wrap e "Running deferred commits")), m, db))
  | none =>
      let m1 := { m with id := u }
      match m.tx with
      | none => ([], .panicked "runtime error: invalid memory address or nil pointer dereference")
      | some _ =>
          match injPrep with
          | some e =>
              ([⟨.prepareTransaction u, .caller⟩],
                .ret (some (finalizerError m1 (.wrap e "Doing PREPARE")), { m1 with id := "" }, db))
          | none =>
              if db.txInProgress ∧ db.prepared = none then
                ([⟨.prepareTransaction u, .caller⟩],
                  .ret (none, { m1 with tx := none },
                    { db with txInProgress := false, prepared := some u }))
              else
                ([⟨.prepareTransaction u, .caller⟩],
                  .ret (some (finalizerError m1
                      (.wrap (.db "there is no transaction in progress") "Doing PREPARE")),
                    { m1 with id := "" }, db))

/-- `Finalizer2P.Commit`: reject when the local handle is still set
(never finalized); else issue `COMMIT PREPARED` on the pool.  On an error,
the caller context error wins if set; otherwise the database error is
wrapped.  `injCommit` injects a driver-level failure; otherwise the
database decides (`COMMIT PREPARED` of an unknown id fails). -/
def Commit (m : Finalizer2P) (db : PgDB) (injCommit : Option GoErr)
    (cc : Option GoErr) :
    List Eff × Outcome (Option GoErr × Finalizer2P × PgDB) :=
  match m.tx with
  | some _ => ([], .ret (some (.simple "Commit on non-finalized transaction"), m, db))
  | none =>
      let eff : Eff := ⟨.commitPrepared m.id, .caller⟩
      match injCommit with
      | some e =>
          match cc with
          | some c => ([eff], .ret (some c, m, db))
          | none => ([eff], .ret (some (.wrap e "Failed to commit prepared"), m, db))
      | none =>
          if db.prepared = some m.id then
            ([eff], .ret (none, m, { db with prepared := none, committed := true }))
          else
            match cc with
            | some c => ([eff], .ret (some c, m, db))
            | none =>
                ([eff], .ret (some (.wrap
                    (.db ("prepared transaction with identifier " ++ m.id ++ " does not exist"))
                    "Failed to commit prepared"), m, db))

/-- `Finalizer2P.Abort`: with a non-nil local handle, roll it back
(`sql.ErrTxDone` is tolerated, other failures panic).  With a nil handle
and an empty id, nothing to do.  Otherwise issue `ROLLBACK PREPARED` on
the pool under a fresh 3-second background context; any failure panics.
`injLocal`/`injPool` inject driver-level failures; otherwise the database
decides. -/
def Abort (m : Finalizer2P) (db : PgDB)
    (injLocal injPool : Option GoErr) :
    List Eff × Outcome (Finalizer2P × PgDB) :=
  match m.tx with
  | some done =>
      let eff : Eff := ⟨.txRollback, .caller⟩
      let res : Option GoErr :=
        match injLocal with
        | some e => some e
        | none => if done then some .txDone else none
      match res with
      | some e =>
          if e = .txDone then ([eff], .ret (m, db))
          else ([eff], .panicked "Failed Rollback()")
      | none =>
          ([eff], .ret ({ m with tx := some true }, { db with txInProgress := false }))
  | none =>
      if m.id = "" then ([], .ret (m, db))
      else
        let eff : Eff := ⟨.rollbackPrepared m.id, .background 3⟩
        match injPool with
        | some _ => ([eff], .panicked "Failed ROLLBACK PREPARED")
        | none =>
            if db.prepared = some m.id then
              ([eff], .ret (m, { db with prepared := none }))
            else
              ([eff], .panicked "Failed ROLLBACK PREPARED")

end S2P

namespace P2P

/-- The pgx-based `Finalizer2P` (third copy in finalizer2p.go), with the
`comitted`/`aborted` flags (spellings kept from the source).  `txClosed`
models the pgx transaction handle having been closed by `TX.Commit`. -/
structure Finalizer2P where
  name : String
  txClosed : Bool
  serverTXID : Int
  serverConnID : Int
  id : String
  deferredCommits : List (Option GoErr)
  comitted : Bool
  aborted : Bool
deriving DecidableEq, Repr

/-- The pgx-variant `finalizerError` with the `msgformat` message. -/
def finalizerError (m : Finalizer2P) (e : GoErr) : GoErr :=
  .wrap e
    ("Error: CONN: " ++ m.name ++ " TX: " ++ m.id ++ " PGTXID: " ++
      toString m.serverTXID ++ " PGPID: " ++ toString m.serverConnID ++
      " message: " ++ e.message)

/-- The state freshly returned by `MakeFinalizer2P` (local transaction
begun, ids captured). -/
def make (name : String) (txid pid : Int) : Finalizer2P :=
  { name := name, txClosed := false, serverTXID := txid, serverConnID := pid,
    id := "", deferredCommits := [], comitted := false, aborted := false }

/-- `Finalizer2P.Defer`: append an action (we record its result). -/
def Defer (m : Finalizer2P) (r : Option GoErr) : Finalizer2P :=
  { m with deferredCommits := m.deferredCommits ++ [r] }

deriving instance DecidableEq for Except

/-- The inputs the pgx `Finalize` consumes from its environment: the
answer of the first `txid_status` query, the fresh UUID, the result of
the `PREPARE TRANSACTION` exec, the result of `TX.Commit`, the answer of
the second `txid_status` query, and the caller context error at the
status check. -/
structure FinIn where
  statusQ : Except GoErr String
  u : String
  prepErr : Option GoErr
  txcErr : Option GoErr
  statusQ2 : Except GoErr String
  cc : Option GoErr
deriving DecidableEq, Repr

/-- pgx `Finalizer2P.Finalize`: run deferred actions; query `txid_status`
(a query error panics); if the status is not in progress, surface the
cancellation error of the caller if set to one of the two context errors, else
a plain error; assign a fresh UUID; `PREPARE TRANSACTION` (on error the id
is cleared and a wrapped error returned); `TX.Commit` (error panics);
query `txid_status` again (error panics). -/
def Finalize (m : Finalizer2P) (i : FinIn) :
    List Eff × Outcome (Option GoErr × Finalizer2P) :=
  match runDeferred m.deferredCommits with
  | some e =>
      ([], .ret (some (finalizerError m (.wrap e "Running deferred commits")), m))
  | none =>
      let effS : Eff := ⟨.queryTxidStatus m.serverTXID, .caller⟩
      match i.statusQ with
      | .error _ => ([effS], .panicked "Getting txid_status()")
      | .ok status =>
          if status ≠ "in progress" then
            if i.cc = some .deadlineExceeded ∨ i.cc = some .canceled then
              ([effS], .ret (i.cc, m))
            else
              ([effS], .ret (some (.simple "Finalize() not in active transaction"), m))
          else
            let m1 := { m with id := i.u }
            let effP : Eff := ⟨.prepareTransaction i.u, .caller⟩
            match i.prepErr with
            | some e =>
                ([effS, effP],
                  .ret (some (finalizerError m1 (.wrap e "Doing PREPARE")), { m1 with id := "" }))
            | none =>
                let effC : Eff := ⟨.txCommit, .caller⟩
                match i.txcErr with
                | some _ => ([effS, effP, effC], .panicked "Commit()")
                | none =>
                    let m2 := { m1 with txClosed := true }
                    let effS2 : Eff := ⟨.queryTxidStatus m.serverTXID, .caller⟩
                    match i.statusQ2 with
                    | .error _ => ([effS, effP, effC, effS2], .panicked "Getting txid_status()")
                    | .ok _ => ([effS, effP, effC, effS2], .ret (none, m2))

/-- pgx `Finalizer2P.Commit`: reject when the id is empty (never
finalized) or the participant is already committed; else issue
`COMMIT PREPARED` on the pool.  On an error the caller context error wins
if non-nil, else the database error is wrapped.  On success the
`comitted` flag is set. -/
def Commit (m : Finalizer2P) (cc injCommit : Option GoErr) :
    List Eff × Outcome (Option GoErr × Finalizer2P) :=
  if m.id = "" then
    ([], .ret (some (.simple "Commit() on transaction that was never finalized"), m))
  else if m.comitted then
    ([], .ret (some (.simple "Commit() on already comitted transation"), m))
  else
    let eff : Eff := ⟨.commitPrepared m.id, .caller⟩
    match injCommit with
    | some e =>
        match cc with
        | some c => ([eff], .ret (some c, m))
        | none => ([eff], .ret (some (.wrap e "Failed to commit prepared"), m))
    | none => ([eff], .ret (none, { m with comitted := true }))

/-- pgx `Finalizer2P.Abort`: no-op when already aborted or committed; when
the id is empty, only mark aborted; else issue `ROLLBACK PREPARED` on the
pool under a fresh 3-second background context (failure panics) and mark
aborted.  The caller context `cc` is taken as an argument to show it is
never consulted. -/
def Abort (m : Finalizer2P) (cc injPool : Option GoErr) :
    List Eff × Outcome Finalizer2P :=
  if m.aborted then ([], .ret m)
  else if m.comitted then ([], .ret m)
  else if m.id = "" then ([], .ret { m with aborted := true })
  else
    let eff : Eff := ⟨.rollbackPrepared m.id, .background 3⟩
    match injPool with
    | some _ => ([eff], .panicked "Failed ROLLBACK PREPARED")
    | none => ([eff], .ret { m with aborted := true })

/-- An operation on a pgx 2P participant, together with the environment
answers it consumes. -/
inductive Op where
  | deferOp (r : Option GoErr)
  | finalizeOp (i : FinIn)
  | commitOp (cc injCommit : Option GoErr)
  | abortOp (cc injPool : Option GoErr)
deriving DecidableEq, Repr

/-- A pgx 2P participant paired with its spec lifecycle state and a
sticky panic flag. -/
structure World where
  m : Finalizer2P
  p : PState
  panicked : Bool
deriving DecidableEq, Repr

/-- The initial world right after `MakeFinalizer2P`. -/
def initWorld (name : String) (txid pid : Int) : World :=
  { m := make name txid pid, p := .ACTIVE, panicked := false }

/-- One step: run the operation on the code state and advance the spec
lifecycle state (finalize success enters FINALIZED, commit success enters
COMMITTED, a completed abort enters ABORTED except on a committed
participant).  A panicked world is stuck. -/
def stepW (w : World) (o : Op) : World :=
  if w.panicked then w
  else
    match o with
    | .deferOp r => { w with m := Defer w.m r }
    | .finalizeOp i =>
        match Finalize w.m i with
        | (_, .ret (none, m2)) => { w with m := m2, p := .FINALIZED }
        | (_, .ret (some _, m2)) => { w with m := m2 }
        | (_, .panicked _) => { w with panicked := true }
    | .commitOp cc inj =>
        match Commit w.m cc inj with
        | (_, .ret (none, m2)) => { w with m := m2, p := .COMMITTED }
        | (_, .ret (some _, m2)) => { w with m := m2 }
        | (_, .panicked _) => { w with panicked := true }
    | .abortOp cc inj =>
        match Abort w.m cc inj with
        | (_, .ret m2) =>
            { w with m := m2, p := if w.p = .COMMITTED then .COMMITTED else .ABORTED }
        | (_, .panicked _) => { w with panicked := true }

/-- Run a sequence of operations. -/
def runW (w : World) : List Op → World
  | [] => w
  | o :: rest => runW (stepW w o) rest

/-- An operation is legal in a world when it is not a finalize, or the
participant is in the ACTIVE lifecycle state and the UUID handed to the
finalize is non-empty (UUID v4 strings never are). -/
def legalOp (w : World) : Op → Bool
  | .finalizeOp i => w.p = PState.ACTIVE && i.u ≠ ""
  | _ => true

/-- Protocol-respecting use of a participant: every operation in the
sequence is legal in the world it is applied to. -/
def LegalFrom (w : World) : List Op → Bool
  | [] => true
  | o :: rest => legalOp w o && LegalFrom (stepW w o) rest

/-- The id-versus-lifecycle correspondence that does hold for the pgx 2P
finalizer: outside panics, the prepared id is non-empty in FINALIZED and
COMMITTED and empty in NEW and ACTIVE.  (In ABORTED it can be either,
because `Abort` does not clear the id.) -/
def IdStateInv (w : World) : Prop :=
  w.panicked = false →
    ((w.p = PState.FINALIZED ∨ w.p = PState.COMMITTED) → w.m.id ≠ "") ∧
    ((w.p = PState.NEW ∨ w.p = PState.ACTIVE) → w.m.id = "")

end P2P

namespace P1

/-- The pgx-based single-phase `Finalizer` (unnamed part_002), with the
`aborted` flag. -/
structure Finalizer where
  name : String
  serverTXID : Int
  serverConnID : Int
  id : String
  deferredCommits : List (Option GoErr)
  aborted : Bool
deriving DecidableEq, Repr

/-- 1P `Finalizer.Commit`: query `SELECT txid_status` on the still-open
local transaction (a query error is wrapped and returned); when the
status is not in progress, return an error naming the status; else issue
the driver commit, wrapping any driver error. -/
def Commit (m : Finalizer) (statusQ : Except GoErr String)
    (commitErr : Option GoErr) :
    List Eff × Option GoErr :=
  let effS : Eff := ⟨.queryTxidStatus m.serverTXID, .caller⟩
  match statusQ with
  | .error e => ([effS], some (.wrap e "Commit() failed to get txid_status()"))
  | .ok status =>
      if status ≠ "in progress" then
        ([effS], some (.simple ("Commit on TX in status \x27" ++ status ++ "\x27")))
      else
        let effC : Eff := ⟨.txCommit, .caller⟩
        match commitErr with
        | some e => ([effS, effC], some (.wrap e "Failed to commit"))
        | none => ([effS, effC], none)

/-- 1P `Finalizer.Abort`: no-op once aborted; else roll the local
transaction back under a fresh 3-second background context, tracing and
swallowing any rollback error, and mark aborted. -/
def Abort (m : Finalizer) (rollbackErr : Option GoErr) :
    List Eff × Finalizer :=
  if m.aborted then ([], m)
  else ([⟨.txRollback, .background 3⟩], { m with aborted := true })

end P1

/-- C1: the 2P finalizer `Finalize` first runs the deferred actions
(the error of the first failing action is wrapped and returned with nothing
issued); when `PREPARE TRANSACTION` fails — by an injected driver error
or because the server has no transaction in progress — `prepared_id` is
cleared and a wrapped error is returned; when `PREPARE` succeeds the
local transaction handle is set to nil and the participant holds the
fresh non-empty UUID as `prepared_id` (the FINALIZED representation). -/
theorem finalize2P_sql_spec (m : S2P.Finalizer2P) (db : PgDB) (u : String)
    (inj : Option GoErr) (d : Bool) (htx : m.tx = some d) (hu : u ≠ "") :
    (∀ e, runDeferred m.deferredCommits = some e →
      S2P.Finalize m db u inj =
        ([], .ret (some (S2P.finalizerError m (.wrap e "Running deferred commits")), m, db))) ∧
    (runDeferred m.deferredCommits = none →
      (∀ e, inj = some e →
        S2P.Finalize m db u inj =
          ([⟨.prepareTransaction u, .caller⟩],
            .ret (some (S2P.finalizerError { m with id := u } (.wrap e "Doing PREPARE")),
              { m with id := "" }, db))) ∧
      (inj = none → ¬(db.txInProgress = true ∧ db.prepared = none) →
        ∃ e2, S2P.Finalize m db u inj =
          ([⟨.prepareTransaction u, .caller⟩],
            .ret (some e2, { m with id := "" }, db))) ∧
      (inj = none → db.txInProgress = true → db.prepared = none →
        S2P.Finalize m db u inj =
          ([⟨.prepareTransaction u, .caller⟩],
            .ret (none, { m with id := u, tx := none },
              { db with txInProgress := false, prepared := some u })) ∧
          ({ m with id := u, tx := none } : S2P.Finalizer2P).id ≠ "")) := by
  refine ⟨fun e he => ?_, fun hdef => ⟨fun e he => ?_, fun hinj hdb => ?_,
    fun hinj h1 h2 => ?_⟩⟩
  · simp [S2P.Finalize, he]
  · subst he
    simp [S2P.Finalize, hdef, htx]
  · subst hinj
    refine ⟨S2P.finalizerError { m with id := u }
      (.wrap (.db "there is no transaction in progress") "Doing PREPARE"), ?_⟩
    simp only [S2P.Finalize, hdef, htx]
    rw [if_neg]
    intro hc
    exact hdb ⟨hc.1, hc.2⟩
  · subst hinj
    refine ⟨?_, hu⟩
    simp [S2P.Finalize, hdef, htx, h1, h2]

/-- Witness for C1: a concrete participant whose finalize succeeds. -/
theorem finalize2P_sql_spec_witness :
    S2P.Finalize ⟨"b", some false, 7, 9, "", []⟩ ⟨true, none, false⟩ "u1" none =
      ([⟨.prepareTransaction "u1", .caller⟩],
        .ret (none, ⟨"b", none, 7, 9, "u1", []⟩, ⟨false, some "u1", false⟩)) :=
  (((finalize2P_sql_spec ⟨"b", some false, 7, 9, "", []⟩ ⟨true, none, false⟩ "u1" none
    false rfl (by decide)).2 rfl).2.2 rfl rfl rfl).1

/-- C2: `Commit` of the pgx 2P finalizer, called on a participant that was never
finalized (empty `prepared_id`) or that is already committed returns a
protocol-state error, issues no SQL at all (so the database is
unmodified), and leaves the participant unchanged. -/
theorem commit2P_guard_spec (m : P2P.Finalizer2P) (cc inj : Option GoErr) :
    (m.id = "" →
      P2P.Commit m cc inj =
        ([], .ret (some (.simple "Commit() on transaction that was never finalized"), m))) ∧
    (m.id ≠ "" → m.comitted = true →
      P2P.Commit m cc inj =
        ([], .ret (some (.simple "Commit() on already comitted transation"), m))) := by
  constructor
  · intro h
    simp [P2P.Commit, h]
  · intro h1 h2
    simp [P2P.Commit, h1, h2]

/-- Witness for C2: a never-finalized and an already-committed concrete
participant are both rejected without touching the database. -/
theorem commit2P_guard_spec_witness :
    P2P.Commit ⟨"b", false, 7, 9, "", [], false, false⟩ none none =
      ([], .ret (some (.simple "Commit() on transaction that was never finalized"),
        ⟨"b", false, 7, 9, "", [], false, false⟩)) ∧
    P2P.Commit ⟨"b", true, 7, 9, "u1", [], true, false⟩ none none =
      ([], .ret (some (.simple "Commit() on already comitted transation"),
        ⟨"b", true, 7, 9, "u1", [], true, false⟩)) :=
  ⟨(commit2P_guard_spec ⟨"b", false, 7, 9, "", [], false, false⟩ none none).1 rfl,
   (commit2P_guard_spec ⟨"b", true, 7, 9, "u1", [], true, false⟩ none none).2 (by decide) rfl⟩

/-- C4: when `COMMIT PREPARED` fails on the pgx 2P finalizer, a non-nil
caller context error (deadline expiry or cancellation) is returned
itself, never masked by the database error; only with a clean context is
the database error wrapped and returned. -/
theorem commit2P_cancellation_wins (m : P2P.Finalizer2P) (e : GoErr)
    (cc : Option GoErr) (hid : m.id ≠ "") (hc : m.comitted = false) :
    (∀ c, cc = some c →
      P2P.Commit m cc (some e) =
        ([⟨.commitPrepared m.id, .caller⟩], .ret (some c, m))) ∧
    (cc = none →
      P2P.Commit m cc (some e) =
        ([⟨.commitPrepared m.id, .caller⟩],
          .ret (some (.wrap e "Failed to commit prepared"), m))) := by
  constructor
  · intro c hcc
    subst hcc
    simp [P2P.Commit, hid, hc]
  · intro hcc
    subst hcc
    simp [P2P.Commit, hid, hc]

/-- Witness for C4: with an expired deadline, the deadline error itself
comes back from a failed `COMMIT PREPARED`. -/
theorem commit2P_cancellation_wins_witness :
    P2P.Commit ⟨"b", true, 7, 9, "u1", [], false, false⟩
        (some .deadlineExceeded) (some (.db "broken pipe")) =
      ([⟨.commitPrepared "u1", .caller⟩], .ret (some .deadlineExceeded,
        ⟨"b", true, 7, 9, "u1", [], false, false⟩)) :=
  (commit2P_cancellation_wins ⟨"b", true, 7, 9, "u1", [], false, false⟩
    (.db "broken pipe") (some .deadlineExceeded) (by decide) rfl).1 .deadlineExceeded rfl

/-- C8: `Commit` of the 1P finalizer queries `txid_status` on the open
local transaction; a status other than in progress yields an error whose
message carries the observed status and the driver commit is not issued;
with the status in progress the driver commit is issued and a driver
error is wrapped and returned; a failing status query is itself wrapped
and returned. -/
theorem commit1P_status_gate_spec (m : P1.Finalizer) (status : String)
    (commitErr : Option GoErr) :
    (status ≠ "in progress" →
      P1.Commit m (.ok status) commitErr =
        ([⟨.queryTxidStatus m.serverTXID, .caller⟩],
          some (.simple ("Commit on TX in status \x27" ++ status ++ "\x27")))) ∧
    (status = "in progress" →
      P1.Commit m (.ok status) commitErr =
        ([⟨.queryTxidStatus m.serverTXID, .caller⟩, ⟨.txCommit, .caller⟩],
          commitErr.map (fun e => .wrap e "Failed to commit"))) ∧
    (∀ e, P1.Commit m (.error e) commitErr =
        ([⟨.queryTxidStatus m.serverTXID, .caller⟩],
          some (.wrap e "Commit() failed to get txid_status()"))) := by
  refine ⟨fun h => ?_, fun h => ?_, fun e => ?_⟩
  · simp [P1.Commit, h]
  · subst h
    cases commitErr <;> simp [P1.Commit]
  · simp [P1.Commit]

/-- Witness for C8: a concrete aborted status is rejected with the status
in the message and no driver commit issued. -/
theorem commit1P_status_gate_spec_witness :
    P1.Commit ⟨"b", 7, 9, "", [], false⟩ (.ok "aborted") none =
      ([⟨.queryTxidStatus 7, .caller⟩],
        some (.simple ("Commit on TX in status \x27" ++ "aborted" ++ "\x27"))) :=
  (commit1P_status_gate_spec ⟨"b", 7, 9, "", [], false⟩ "aborted" none).1 (by decide)

/-- C9: on a finalized pgx 2P participant (no abort or commit yet,
non-empty `prepared_id`), `Abort` issues exactly one `ROLLBACK PREPARED`
under a fresh 3-second background deadline, and its behaviour does not
depend on the caller context state, so cleanup proceeds even under an
expired or cancelled caller context. -/
theorem abort_finalized_independent_deadline (m : P2P.Finalizer2P)
    (cc inj : Option GoErr) (ha : m.aborted = false) (hc : m.comitted = false)
    (hid : m.id ≠ "") :
    (P2P.Abort m cc inj).1 = [⟨.rollbackPrepared m.id, .background 3⟩] ∧
    (∀ cc2, P2P.Abort m cc inj = P2P.Abort m cc2 inj) := by
  constructor
  · cases inj <;> simp [P2P.Abort, ha, hc, hid]
  · intro cc2
    rfl

/-- Witness for C9: with the caller context already past its deadline,
abort still issues the rollback under the independent background
deadline. -/
theorem abort_finalized_independent_deadline_witness :
    (P2P.Abort ⟨"b", true, 7, 9, "u1", [], false, false⟩
      (some .deadlineExceeded) none).1 =
      [⟨.rollbackPrepared "u1", .background 3⟩] :=
  (abort_finalized_independent_deadline ⟨"b", true, 7, 9, "u1", [], false, false⟩
    (some .deadlineExceeded) none rfl rfl (by decide)).1

/-- Helper: every return of the pgx 2P `Commit` is either an error with
the participant unchanged, or the success that sets the comitted flag
(possible only with a non-empty id on a not-yet-committed participant). -/
theorem P2P_commit_cases (m : P2P.Finalizer2P) (cc inj : Option GoErr) :
    (∃ effs e, P2P.Commit m cc inj = (effs, .ret (some e, m))) ∨
    (P2P.Commit m cc inj =
        ([⟨.commitPrepared m.id, .caller⟩], .ret (none, { m with comitted := true })) ∧
      m.id ≠ "" ∧ m.comitted = false) := by
  by_cases h1 : m.id = ""
  · exact Or.inl ⟨[], .simple "Commit() on transaction that was never finalized",
      by simp [P2P.Commit, h1]⟩
  · by_cases h2 : m.comitted = true
    · exact Or.inl ⟨[], .simple "Commit() on already comitted transation",
        by simp [P2P.Commit, h1, h2]⟩
    · rcases inj with _ | e
      · exact Or.inr ⟨by simp [P2P.Commit, h1, h2], h1, by simpa using h2⟩
      · rcases cc with _ | c
        · exact Or.inl ⟨[⟨.commitPrepared m.id, .caller⟩],
            .wrap e "Failed to commit prepared", by simp [P2P.Commit, h1, h2]⟩
        · exact Or.inl ⟨[⟨.commitPrepared m.id, .caller⟩], c,
            by simp [P2P.Commit, h1, h2]⟩

/-- Helper: an error return of the pgx 2P `Commit` leaves the participant
exactly unchanged. -/
theorem P2P_commit_error_state (m m2 : P2P.Finalizer2P) (cc inj : Option GoErr)
    (e : GoErr) (effs : List Eff)
    (h : P2P.Commit m cc inj = (effs, .ret (some e, m2))) : m2 = m := by
  rcases P2P_commit_cases m cc inj with ⟨effs2, e2, hc⟩ | ⟨hc, _, _⟩
  · have := h.symm.trans hc
    simp only [Prod.mk.injEq, Outcome.ret.injEq] at this
    exact this.2.2
  · have := h.symm.trans hc
    simp at this

/-- Helper: a normal return of the pgx 2P `Abort` has the aborted or the
comitted flag set, and keeps the id and the comitted flag. -/
theorem P2P_abort_ret_flags (m m2 : P2P.Finalizer2P) (cc inj : Option GoErr)
    (effs : List Eff) (h : P2P.Abort m cc inj = (effs, .ret m2)) :
    (m2.aborted = true ∨ m2.comitted = true) ∧ m2.id = m.id ∧ m2.comitted = m.comitted := by
  unfold P2P.Abort at h
  cases h1 : m.aborted with
  | true =>
      simp only [h1, if_true, Prod.mk.injEq, Outcome.ret.injEq] at h
      obtain ⟨-, hm⟩ := h
      subst hm
      exact ⟨Or.inl h1, rfl, rfl⟩
  | false =>
      simp only [h1, Bool.false_eq_true, if_false] at h
      cases h2 : m.comitted with
      | true =>
          simp only [h2, if_true, Prod.mk.injEq, Outcome.ret.injEq] at h
          obtain ⟨-, hm⟩ := h
          subst hm
          exact ⟨Or.inr h2, rfl, h2⟩
      | false =>
          simp only [h2, Bool.false_eq_true, if_false] at h
          by_cases h3 : m.id = ""
          · simp only [h3, if_true, Prod.mk.injEq, Outcome.ret.injEq] at h
            obtain ⟨-, hm⟩ := h
            subst hm
            exact ⟨Or.inl rfl, h3.symm, rfl⟩
          · simp only [h3, if_false] at h
            rcases inj with _ | e
            · simp only [Prod.mk.injEq, Outcome.ret.injEq] at h
              obtain ⟨-, hm⟩ := h
              subst hm
              exact ⟨Or.inl rfl, rfl, rfl⟩
            · simp at h

/-- Helper: after a pgx 2P `Abort` that returned normally, a further
`Abort` issues nothing, cannot fail, and leaves the participant as it
was. -/
theorem P2P_abort_idem (m m2 : P2P.Finalizer2P) (cc inj cc2 inj2 : Option GoErr)
    (effs : List Eff) (h : P2P.Abort m cc inj = (effs, .ret m2)) :
    P2P.Abort m2 cc2 inj2 = ([], .ret m2) := by
  rcases (P2P_abort_ret_flags m m2 cc inj effs h).1 with hf | hf
  · simp [P2P.Abort, hf]
  · by_cases h2 : m2.aborted = true <;> simp [P2P.Abort, h2, hf]

/-- Helper: the pgx 1P `Abort` always returns with the aborted flag
set. -/
theorem P1_abort_sets_aborted (m m2 : P1.Finalizer) (r : Option GoErr)
    (effs : List Eff) (h : P1.Abort m r = (effs, m2)) : m2.aborted = true := by
  unfold P1.Abort at h
  cases h1 : m.aborted with
  | true =>
      simp only [h1, if_true, Prod.mk.injEq] at h
      obtain ⟨-, hm⟩ := h
      subst hm
      exact h1
  | false =>
      simp only [h1, Bool.false_eq_true, if_false, Prod.mk.injEq] at h
      obtain ⟨-, hm⟩ := h
      subst hm
      rfl

/-- C6 amended: for the pgx finalizers — the 2P variant with the
aborted and comitted flags and the 1P variant with the aborted flag —
any abort after a first abort that returned normally issues no database
work, never fails, and leaves the participant unchanged.  (The
database/sql 2P variant instead re-issues ROLLBACK PREPARED and panics;
see the counterexample.) -/
theorem double_abort_noop_pgx :
    (∀ (m m2 : P2P.Finalizer2P) (cc inj cc2 inj2 : Option GoErr) (effs : List Eff),
      P2P.Abort m cc inj = (effs, .ret m2) →
      P2P.Abort m2 cc2 inj2 = ([], .ret m2)) ∧
    (∀ (m m2 : P1.Finalizer) (r r2 : Option GoErr) (effs : List Eff),
      P1.Abort m r = (effs, m2) → P1.Abort m2 r2 = ([], m2)) := by
  constructor
  · exact fun m m2 cc inj cc2 inj2 effs h => P2P_abort_idem m m2 cc inj cc2 inj2 effs h
  · intro m m2 r r2 effs h
    simp [P1.Abort, P1_abort_sets_aborted m m2 r effs h]

/-- Witness for C6: concrete second aborts on both pgx variants are
no-ops. -/
theorem double_abort_noop_pgx_witness :
    P2P.Abort ⟨"b", true, 7, 9, "", [], false, true⟩ none none =
      ([], .ret ⟨"b", true, 7, 9, "", [], false, true⟩) ∧
    P1.Abort ⟨"b", 7, 9, "", [], true⟩ none = ([], ⟨"b", 7, 9, "", [], true⟩) :=
  ⟨double_abort_noop_pgx.1 ⟨"b", true, 7, 9, "", [], false, false⟩
      ⟨"b", true, 7, 9, "", [], false, true⟩ none none none none [] (by decide),
   double_abort_noop_pgx.2 ⟨"b", 7, 9, "", [], false⟩ ⟨"b", 7, 9, "", [], true⟩
      none none [⟨.txRollback, .background 3⟩] (by decide)⟩

/-- C6 counterexample: on the database/sql 2P finalizer, after a
successful finalize and a first successful abort, a second abort
re-issues ROLLBACK PREPARED on the already-removed prepared transaction
and panics — repeated abort is neither side-effect-free nor
failure-free. -/
theorem double_abort_sql_panics :
    S2P.Finalize ⟨"b", some false, 11, 22, "", []⟩ ⟨true, none, false⟩ "u1" none =
      ([⟨.prepareTransaction "u1", .caller⟩],
        .ret (none, ⟨"b", none, 11, 22, "u1", []⟩, ⟨false, some "u1", false⟩)) ∧
    S2P.Abort ⟨"b", none, 11, 22, "u1", []⟩ ⟨false, some "u1", false⟩ none none =
      ([⟨.rollbackPrepared "u1", .background 3⟩],
        .ret (⟨"b", none, 11, 22, "u1", []⟩, ⟨false, none, false⟩)) ∧
    S2P.Abort ⟨"b", none, 11, 22, "u1", []⟩ ⟨false, none, false⟩ none none =
      ([⟨.rollbackPrepared "u1", .background 3⟩],
        .panicked "Failed ROLLBACK PREPARED") := by decide

/-- C3: on the database/sql 2P finalizer, after a successful finalize and
a successful commit, a deferred abort is not a no-op — contradicting the
Abort doc comment in the source — because the participant has no
committed marker: the abort re-issues ROLLBACK PREPARED on the committed
(hence no longer listed) prepared transaction and panics. -/
theorem abort_after_commit_sql_panics :
    S2P.Finalize ⟨"b", some false, 11, 22, "", []⟩ ⟨true, none, false⟩ "u1" none =
      ([⟨.prepareTransaction "u1", .caller⟩],
        .ret (none, ⟨"b", none, 11, 22, "u1", []⟩, ⟨false, some "u1", false⟩)) ∧
    S2P.Commit ⟨"b", none, 11, 22, "u1", []⟩ ⟨false, some "u1", false⟩ none none =
      ([⟨.commitPrepared "u1", .caller⟩],
        .ret (none, ⟨"b", none, 11, 22, "u1", []⟩, ⟨false, none, true⟩)) ∧
    S2P.Abort ⟨"b", none, 11, 22, "u1", []⟩ ⟨false, none, true⟩ none none =
      ([⟨.rollbackPrepared "u1", .background 3⟩],
        .panicked "Failed ROLLBACK PREPARED") := by decide

/-- C7: the database/sql 2P finalizer does not detect a second finalize:
after a first successful finalize released the handle (TX = nil), a
second call re-runs the deferred actions and then dereferences the nil
handle — a runtime panic instead of a deterministic no-op or
rejection. -/
theorem double_finalize_nil_deref :
    S2P.Finalize ⟨"b", some false, 11, 22, "", []⟩ ⟨true, none, false⟩ "u1" none =
      ([⟨.prepareTransaction "u1", .caller⟩],
        .ret (none, ⟨"b", none, 11, 22, "u1", []⟩, ⟨false, some "u1", false⟩)) ∧
    S2P.Finalize ⟨"b", none, 11, 22, "u1", []⟩ ⟨false, some "u1", false⟩ "u2" none =
      ([], .panicked "runtime error: invalid memory address or nil pointer dereference") := by
  decide

/-- Helper: one legal step preserves the id-versus-lifecycle
correspondence. -/
theorem IdStateInv_step (w : P2P.World) (o : P2P.Op)
    (hw : P2P.IdStateInv w) (hl : P2P.legalOp w o = true) :
    P2P.IdStateInv (P2P.stepW w o) := by
  by_cases hp : w.panicked = true
  · simpa [P2P.stepW, hp] using hw
  · have hp' : w.panicked = false := by simpa using hp
    rcases o with r | i | ⟨cc, inj⟩ | ⟨cc, inj⟩
    · simp only [P2P.stepW, hp', Bool.false_eq_true, if_false]
      exact fun _ => hw hp'
    · simp only [P2P.legalOp, Bool.and_eq_true, decide_eq_true_eq] at hl
      obtain ⟨hact, hu⟩ := hl
      rcases hd : runDeferred w.m.deferredCommits with _ | e
      · rcases hs : i.statusQ with e' | status
        · simp [P2P.IdStateInv, P2P.stepW, hp', P2P.Finalize, hd, hs]
        · by_cases hst : status = "in progress"
          · rcases hp2 : i.prepErr with _ | ep
            · rcases ht : i.txcErr with _ | et
              · rcases h2 : i.statusQ2 with e2 | s2
                · simp [P2P.IdStateInv, P2P.stepW, hp', P2P.Finalize, hd, hs, hst, hp2, ht, h2]
                · simp only [P2P.stepW, hp', if_false, Bool.false_eq_true, P2P.Finalize, hd,
                    hs, hst, hp2, ht, h2, ne_eq, not_true_eq_false, if_false, ite_false]
                  refine fun _ => ⟨fun _ => hu, fun hq => ?_⟩
                  simp at hq
              · simp [P2P.IdStateInv, P2P.stepW, hp', P2P.Finalize, hd, hs, hst, hp2, ht]
            · simp only [P2P.stepW, hp', Bool.false_eq_true, if_false, P2P.Finalize, hd,
                hs, hst, hp2, ne_eq, not_true_eq_false, ite_false]
              refine fun _ => ⟨fun hq => ?_, fun _ => rfl⟩
              rw [hact] at hq
              simp at hq
          · by_cases hcc : i.cc = some GoErr.deadlineExceeded ∨ i.cc = some GoErr.canceled
            · rcases hcc with hcc | hcc <;>
                · simp [P2P.stepW, hp', P2P.Finalize, hd, hs, hst, hcc]
                  exact fun _ => hw hp'
            · simp [P2P.stepW, hp', P2P.Finalize, hd, hs, hst, hcc]
              exact fun _ => hw hp'
      · simp only [P2P.stepW, hp', Bool.false_eq_true, if_false, P2P.Finalize, hd]
        exact fun _ => hw hp'
    · rcases P2P_commit_cases w.m cc inj with ⟨effs, e, hc⟩ | ⟨hc, hid, hcm⟩
      · simp only [P2P.stepW, hp', Bool.false_eq_true, if_false, hc]
        intro hq
        exact hw hp'
      · simp only [P2P.stepW, hp', Bool.false_eq_true, if_false, hc]
        refine fun _ => ⟨fun _ => hid, fun hq => ?_⟩
        simp at hq
    · rcases ha : P2P.Abort w.m cc inj with ⟨effs, out⟩
      rcases out with m2 | msg
      · obtain ⟨hflags, hid, hcm⟩ := P2P_abort_ret_flags w.m m2 cc inj effs ha
        simp only [P2P.stepW, hp', Bool.false_eq_true, if_false, ha]
        refine fun _ => ⟨fun hq => ?_, fun hq => ?_⟩
        · by_cases hwp : w.p = PState.COMMITTED
          · rw [hid]
            exact (hw hp').1 (Or.inr hwp)
          · rw [if_neg hwp] at hq
            simp at hq
        · by_cases hwp : w.p = PState.COMMITTED
          · rw [if_pos hwp] at hq
            simp at hq
          · rw [if_neg hwp] at hq
            simp at hq
      · simp [P2P.IdStateInv, P2P.stepW, hp', ha]

/-- Helper: legal runs preserve the correspondence. -/
theorem IdStateInv_run (ops : List P2P.Op) (w : P2P.World)
    (hw : P2P.IdStateInv w) (hl : P2P.LegalFrom w ops = true) :
    P2P.IdStateInv (P2P.runW w ops) := by
  induction ops generalizing w with
  | nil => simpa [P2P.runW] using hw
  | cons o rest ih =>
      simp only [P2P.LegalFrom, Bool.and_eq_true] at hl
      exact ih (P2P.stepW w o) (IdStateInv_step w o hw hl.1) hl.2

/-- C5 amended: over protocol-respecting histories of a pgx 2P
participant (finalize invoked only in the ACTIVE lifecycle state, with
genuine non-empty UUIDs), the prepared id is non-empty whenever the
lifecycle state is FINALIZED or COMMITTED and empty in NEW and ACTIVE;
the original iff fails in ABORTED because `Abort` does not clear the
prepared id (see the counterexample). -/
theorem prepared_id_state_invariant (name : String) (txid pid : Int)
    (ops : List P2P.Op)
    (hl : P2P.LegalFrom (P2P.initWorld name txid pid) ops = true) :
    P2P.IdStateInv (P2P.runW (P2P.initWorld name txid pid) ops) :=
  IdStateInv_run ops (P2P.initWorld name txid pid)
    (fun _ => ⟨fun hq => by rcases hq with hq | hq <;> simp [P2P.initWorld, P2P.make] at hq,
      fun _ => rfl⟩) hl

/-- Witness for C5: a finalize followed by a commit is a legal history
and satisfies the correspondence. -/
theorem prepared_id_state_invariant_witness :
    P2P.LegalFrom (P2P.initWorld "bank0" 11 22)
      [.finalizeOp ⟨.ok "in progress", "u1", none, none, .ok "committed", none⟩,
       .commitOp none none] = true ∧
    P2P.IdStateInv (P2P.runW (P2P.initWorld "bank0" 11 22)
      [.finalizeOp ⟨.ok "in progress", "u1", none, none, .ok "committed", none⟩,
       .commitOp none none]) :=
  ⟨by decide, prepared_id_state_invariant "bank0" 11 22 _ (by decide)⟩

/-- C5 counterexample: a legal finalize-then-abort history leaves the
lifecycle state ABORTED with a non-empty prepared id, so non-emptiness of
the prepared id is not equivalent to being in FINALIZED or COMMITTED. -/
theorem prepared_id_aborted_counterexample :
    P2P.LegalFrom (P2P.initWorld "bank0" 11 22)
      [.finalizeOp ⟨.ok "in progress", "u1", none, none, .ok "committed", none⟩,
       .abortOp none none] = true ∧
    ¬((P2P.runW (P2P.initWorld "bank0" 11 22)
        [.finalizeOp ⟨.ok "in progress", "u1", none, none, .ok "committed", none⟩,
         .abortOp none none]).m.id ≠ "" ↔
      ((P2P.runW (P2P.initWorld "bank0" 11 22)
        [.finalizeOp ⟨.ok "in progress", "u1", none, none, .ok "committed", none⟩,
         .abortOp none none]).p = PState.FINALIZED ∨
       (P2P.runW (P2P.initWorld "bank0" 11 22)
        [.finalizeOp ⟨.ok "in progress", "u1", none, none, .ok "committed", none⟩,
         .abortOp none none]).p = PState.COMMITTED)) := by decide

/-- C10: if the pgx 2P `Commit` on a finalized participant returns an
error, the participant is exactly unchanged — comitted stays false and
the prepared id stays non-empty — so a subsequent `Abort` still issues
ROLLBACK PREPARED on the same prepared transaction. -/
theorem commit2P_failure_preserves_state (m m2 : P2P.Finalizer2P)
    (cc inj cc2 : Option GoErr) (e : GoErr) (effs : List Eff)
    (hid : m.id ≠ "") (hc : m.comitted = false) (ha : m.aborted = false)
    (h : P2P.Commit m cc inj = (effs, .ret (some e, m2))) :
    m2 = m ∧ m2.comitted = false ∧ m2.id ≠ "" ∧
    P2P.Abort m2 cc2 none =
      ([⟨.rollbackPrepared m.id, .background 3⟩], .ret { m2 with aborted := true }) := by
  have hm : m2 = m := P2P_commit_error_state m m2 cc inj e effs h
  subst hm
  exact ⟨rfl, hc, hid, by simp [P2P.Abort, ha, hc, hid]⟩

/-- Witness for C10: a concrete failed COMMIT PREPARED leaves the
participant resolvable by rollback. -/
theorem commit2P_failure_preserves_state_witness :
    P2P.Abort ⟨"b", true, 7, 9, "u1", [], false, false⟩ none none =
      ([⟨.rollbackPrepared "u1", .background 3⟩],
        .ret ⟨"b", true, 7, 9, "u1", [], false, true⟩) :=
  (commit2P_failure_preserves_state ⟨"b", true, 7, 9, "u1", [], false, false⟩
    ⟨"b", true, 7, 9, "u1", [], false, false⟩ none (some (.db "broken pipe")) none
    (.wrap (.db "broken pipe") "Failed to commit prepared")
    [⟨.commitPrepared "u1", .caller⟩] (by decide) rfl rfl (by decide)).2.2.2

end Txmpg
